import Mathlib

/-!
# Verification of the rebrickable bot's core logic (`src/bot.py`)

Shallow embedding of the pure core of the Telegram bot in `bot.py`:
trigger extraction (`extract_private_set_id`, `extract_group_set_id`,
`normalize_bot_username`), caption formatting (`format_set_html` with
Python's `html.escape`), the MOC heuristic (`looks_like_moc_id`,
`moc_url_for_id`), error classification (`is_not_found_error`), the
image fetch (`fetch_image_bytes`), the delivery pipeline of `send_set`,
and the dispatch / fallback logic of `unified_message_handler`.

Strings are modelled as Lean `String`s / `List Char`; Python's `re`
patterns used by the bot are simple enough to unroll into deterministic
scanners (the patterns contain no alternation and their greedy runs are
over disjoint character classes, so no backtracking can succeed where
the greedy scan fails; this is argued at each definition).  Python's
`\s` and `str.strip` are modelled over the ASCII whitespace set and
case-insensitivity over ASCII letters, matching the data the bot
actually handles.
-/

set_option maxRecDepth 65536

set_option maxHeartbeats 2000000

/-- The ASCII whitespace set recognised by Python's `\s` and `str.strip`
(the model restricts Python's Unicode whitespace to ASCII). -/
def isPySpace (c : Char) : Bool :=
  c = ' ' || c = '\t' || c = '\n' || c = '\r' || c = '\x0b' || c = '\x0c'

/-- Value of a run of decimal digit characters, as Python's `int`. -/
def digitsToNat (l : List Char) : Nat :=
  l.foldl (fun a c => a * 10 + (c.toNat - 48)) 0

/-- Remove trailing characters satisfying `p`. -/
def dropTrailing (p : Char → Bool) (l : List Char) : List Char :=
  (l.reverse.dropWhile p).reverse

/-- Python's `str.strip()` (ASCII whitespace model). -/
def pyStrip (l : List Char) : List Char :=
  dropTrailing isPySpace (l.dropWhile isPySpace)

/-- `str.strip()` at the `String` level. -/
def stripStr (s : String) : String :=
  ⟨pyStrip s.data⟩

/-- Executable check that `pat` is a prefix of `l`. -/
def isPrefL : List Char → List Char → Bool
  | [], _ => true
  | _ :: _, [] => false
  | p :: ps, c :: cs => p = c && isPrefL ps cs

/-- Executable check that `pat` occurs as a contiguous substring of `l`
(Python's `in` on strings). -/
def isSubL : List Char → List Char → Bool
  | pat, [] => pat.isEmpty
  | pat, c :: cs => isPrefL pat (c :: cs) || isSubL pat cs

/-- `b` is empty or its head fails `p`; the shape of what remains after a
maximal run of `p`-characters. -/
def headNotSat (p : Char → Bool) : List Char → Prop
  | [] => True
  | c :: _ => p c = false

/-- One decimal digit character (only ever applied to values `< 10`). -/
def digitChar : Nat → Char
  | 0 => '0' | 1 => '1' | 2 => '2' | 3 => '3' | 4 => '4'
  | 5 => '5' | 6 => '6' | 7 => '7' | 8 => '8' | _ => '9'

/-- Fuel-driven decimal rendering of a natural number (structural
recursion so the kernel can evaluate it; fuel `n + 1` always suffices). -/
def natDigitsAux : Nat → Nat → List Char
  | 0, _ => []
  | fuel + 1, n =>
    if n < 10 then [digitChar n]
    else natDigitsAux fuel (n / 10) ++ [digitChar (n % 10)]

/-- Python's `str` on a non-negative `int`. -/
def natRepr (n : Nat) : String :=
  ⟨natDigitsAux (n + 1) n⟩

/-- Python's `str` on an `int` (possibly negative). -/
def intStr (i : Int) : String :=
  if i < 0 then ⟨'-' :: (natRepr i.natAbs).data⟩ else natRepr i.toNat

/-- Concatenation of per-character images (Python's s.replace chains and
generator joins restricted to character-to-string maps). -/
def concatMapChars (f : Char → List Char) : List Char → List Char
  | [] => []
  | c :: cs => f c ++ concatMapChars f cs

/-- One character under Python's `html.escape(s, quote=True)` (the
default).  The sequential `str.replace` chain of `html.escape` replaces
`&` first and never reprocesses inserted text, so it equals this
character-wise map. -/
def escChar (c : Char) : List Char :=
  if c = '&' then ("&amp;").data
  else if c = '<' then ("&lt;").data
  else if c = '>' then ("&gt;").data
  else if c = '"' then ("&quot;").data
  else if c = '\x27' then ("&#x27;").data
  else [c]

/-- Python's `html.escape(s, quote=True)` on a character list. -/
def escapeList (l : List Char) : List Char :=
  concatMapChars escChar l

/-- Python's `html.escape(s, quote=True)` at the `String` level. -/
def pyEscape (s : String) : String :=
  ⟨escapeList s.data⟩

/-- `normalize_bot_username` (bot.py:87-91): strip surrounding whitespace,
then drop a single leading `@`. -/
def normalize_bot_username (u : String) : String :=
  match pyStrip u.data with
  | '@' :: r => ⟨r⟩
  | t => ⟨t⟩

/-- Lower-casing of a character list (ASCII model of Python's
case-insensitive matching). -/
def lowerL (l : List Char) : List Char :=
  l.map Char.toLower

/-- The literal part of the group-trigger pattern: `@` followed by the
normalized handle, lower-cased for case-insensitive comparison
(`re.escape` makes the handle literal, which the model represents by
comparing characters directly). -/
def mentionPat (u : List Char) : List Char :=
  lowerL ('@' :: u)

/-- One attempt of the pattern `@handle\s+(\d+)(?:-\d+)?` at the start of
`l` (bot.py:107-109).  The greedy `\s+` and `(\d+)` runs are over
disjoint character classes, so the regex engine's backtracking can never
succeed where this maximal-run scan fails; the optional `(?:-\d+)?`
constrains nothing.  Returns the value of capture group 1. -/
def matchAt (pat l : List Char) : Option Nat :=
  if lowerL (l.take pat.length) = pat then
    let r := l.drop pat.length
    let ws := r.takeWhile isPySpace
    if ws.isEmpty then none
    else
      let r2 := r.dropWhile isPySpace
      let ds := r2.takeWhile Char.isDigit
      if ds.isEmpty then none else some (digitsToNat ds)
  else none

/-- `re.search`: try the pattern at each position from the left
(bot.py:108). -/
def searchFrom (pat : List Char) : List Char → Option Nat
  | [] => none
  | c :: tl =>
    match matchAt pat (c :: tl) with
    | some n => some n
    | none => searchFrom pat tl

/-- `extract_group_set_id` (bot.py:94-109). -/
def extract_group_set_id (text botUsername : String) : Option Nat :=
  if text.data.isEmpty then none
  else
    let u := normalize_bot_username botUsername
    if u.data.isEmpty then none
    else searchFrom (mentionPat u.data) text.data

/-- The tail of the private pattern after the leading digit run:
`(?:-\d+)?\s*$` with the digits' value already fixed (bot.py:120).
If the tail starts with `-` the optional group must consume `-\d+`
(skipping it leaves `-` for `\s*$`, which fails), then only whitespace
may remain; otherwise only whitespace may remain. -/
def privTail (ds rest : List Char) : Option Nat :=
  match rest with
  | [] => some (digitsToNat ds)
  | c :: r =>
    if c = '-' then
      let ds2 := r.takeWhile Char.isDigit
      if ds2.isEmpty then none
      else if (r.dropWhile Char.isDigit).all isPySpace then some (digitsToNat ds)
      else none
    else if (c :: r).all isPySpace then some (digitsToNat ds) else none

/-- `extract_private_set_id` (bot.py:112-121): `re.match` of
`^\s*(\d+)(?:-\d+)?\s*$` (with `$` under a trailing `\s*`, `re.match`
accepts exactly the full-string matches).  All greedy runs are over
disjoint character classes, so the maximal-run scan is exact. -/
def extract_private_set_id (text : String) : Option Nat :=
  if text.data.isEmpty then none
  else
    let l1 := text.data.dropWhile isPySpace
    let ds := l1.takeWhile Char.isDigit
    if ds.isEmpty then none
    else privTail ds (l1.dropWhile Char.isDigit)

/-- `looks_like_moc_id` (bot.py:124-126): the decimal form of the integer
has exactly 6 digits. -/
def looks_like_moc_id (set_id : Nat) : Bool :=
  (natRepr set_id).length == 6

/-- `moc_url_for_id` (bot.py:129-130). -/
def moc_url_for_id (moc_id : Nat) : String :=
  ⟨("https://rebrickable.com/mocs/MOC-").data ++ (natRepr moc_id).data ++ [ '/' ]⟩

/-- `is_not_found_error` (bot.py:133-135): lower-case the error text and
look for `404` or `not found` as substrings. -/
def is_not_found_error (err_text : String) : Bool :=
  isSubL (("404").data) (lowerL err_text.data) ||
    isSubL (("not found").data) (lowerL err_text.data)

/-- `re.search(r"(\d+)", raw)` in the handler's fallback (bot.py:215):
the leftmost maximal digit run. -/
def firstRun : List Char → Option (List Char)
  | [] => none
  | c :: tl =>
    if c.isDigit then some ((c :: tl).takeWhile Char.isDigit) else firstRun tl

/-- Specification-side reading of the private trigger, written from the
spec's regex `^\s*\d+(-\d+)?\s*$`: surrounding whitespace, a digit run
(whose value is the result), optionally a hyphen and a second digit run,
and nothing else. -/
def PrivMatchP (l : List Char) (n : Nat) : Prop :=
  ∃ ws1 ds tl, l = ws1 ++ ds ++ tl ∧
    (∀ c ∈ ws1, isPySpace c = true) ∧
    ds ≠ [] ∧ (∀ c ∈ ds, c.isDigit = true) ∧ n = digitsToNat ds ∧
    ((∀ c ∈ tl, isPySpace c = true) ∨
      ∃ ds2 ws2, tl = '-' :: (ds2 ++ ws2) ∧ ds2 ≠ [] ∧
        (∀ c ∈ ds2, c.isDigit = true) ∧ (∀ c ∈ ws2, isPySpace c = true))

/-- Specification-side reading of one group-trigger match at the head of
`l`: a case-insensitive occurrence of `@handle`, at least one whitespace
character, then the digit run giving the result (the optional `-digits`
suffix constrains nothing, so it does not appear). -/
def MatchAtP (pat l : List Char) (n : Nat) : Prop :=
  ∃ seg ws ds rest, l = seg ++ ws ++ ds ++ rest ∧ lowerL seg = pat ∧
    ws ≠ [] ∧ (∀ c ∈ ws, isPySpace c = true) ∧
    ds ≠ [] ∧ (∀ c ∈ ds, c.isDigit = true) ∧
    headNotSat Char.isDigit rest ∧ n = digitsToNat ds

/-- No group-trigger match starts before position `k`. -/
def NoMatchBefore (pat l : List Char) (k : Nat) : Prop :=
  ∀ j < k, ∀ m, ¬ MatchAtP pat (l.drop j) m

/-- Specification-side reading of the fallback digit search: `ds` is the
leftmost maximal digit run of `l`. -/
def IsLeftmostRun (l ds : List Char) : Prop :=
  ∃ pre post, l = pre ++ ds ++ post ∧ ds ≠ [] ∧
    (∀ c ∈ ds, c.isDigit = true) ∧ (∀ c ∈ pre, c.isDigit = false) ∧
    headNotSat Char.isDigit post

/-- A catalog record as `format_set_html` reads it from the parsed JSON:
`name`, `set_url`, `set_img_url` and `set_num` arrive as strings
(`str(data.get(..., ""))`), while `year` and `num_parts` are either
integers or missing/null (`data.get(...)` with no default). -/
structure SetData where
  name : String
  year : Option Int
  num_parts : Option Int
  set_url : String
  set_img_url : String
  set_num : String
deriving DecidableEq

/-- `str(x) if x is not None else "—"` (bot.py:70-71). -/
def optStr : Option Int → String
  | none => "—"
  | some v => intStr v

/-- The cleaned identifier (bot.py:62-64): the leading digit run of the
raw `set_num`, or the raw field itself if it has no leading digits
(`re.match(r"(\d+)", raw)`). -/
def set_num_clean (raw : String) : String :=
  let ds := raw.data.takeWhile Char.isDigit
  if ds.isEmpty then raw else ⟨ds⟩

/-- Python's `"\n".join` on character lists. -/
def joinNL : List (List Char) → List Char
  | [] => []
  | [l] => l
  | l :: ls => l ++ '\n' :: joinNL ls

/-- `format_set_html` (bot.py:55-84): builds the caption lines, drops the
empty ones, joins with newlines; returns the caption and the stripped
image URL. -/
def format_set_html (d : SetData) : String × String :=
  let name := stripStr d.name
  let set_url := stripStr d.set_url
  let set_img_url := stripStr d.set_img_url
  let snc := set_num_clean (stripStr d.set_num)
  let set_num_e := escapeList snc.data
  let name_e := escapeList name.data
  let set_url_e := escapeList set_url.data
  let year_s := optStr d.year
  let parts_s := optStr d.num_parts
  let lego_url_e := escapeList (("https://www.lego.com/en-us/search?q=").data ++ snc.data)
  let lines : List (List Char) := [
    ("ID: <b>").data ++ set_num_e ++ ("</b>").data,
    ("Название: <b>").data ++ name_e ++ ("</b> (").data ++ year_s.data ++ (")").data,
    ("Деталей: <b>").data ++ parts_s.data ++ ("</b>\n").data,
    if set_url.data.isEmpty then []
    else ("🔗 <a href=\"").data ++ set_url_e ++ ("\"><b>Rebrickable</b></a>").data,
    ("🧱 <a href=\"").data ++ lego_url_e ++ ("\">Lego</a> <i></i>").data]
  (⟨joinNL (lines.filter (fun ln => !ln.isEmpty))⟩, set_img_url)

/-- Specification-side caption layout, written from the spec's
description: identifier line, name-with-year line, part-count line (an
em-dash for missing year or part count), the catalog source link line
present exactly when the stripped source URL is non-empty, and the
constructed retailer search link; every catalog-supplied field embedded
through `html.escape`. -/
def captSpec (d : SetData) : List Char :=
  ("ID: <b>").data ++ escapeList (set_num_clean (stripStr d.set_num)).data
    ++ ("</b>\nНазвание: <b>").data ++ escapeList (stripStr d.name).data
    ++ ("</b> (").data ++ (optStr d.year).data
    ++ (")\nДеталей: <b>").data ++ (optStr d.num_parts).data ++ ("</b>\n\n").data
    ++ (if (stripStr d.set_url).data.isEmpty then []
        else ("🔗 <a href=\"").data ++ escapeList (stripStr d.set_url).data
          ++ ("\"><b>Rebrickable</b></a>\n").data)
    ++ ("🧱 <a href=\"").data
    ++ escapeList (("https://www.lego.com/en-us/search?q=").data
        ++ (set_num_clean (stripStr d.set_num)).data)
    ++ ("\">Lego</a> <i></i>").data

/-- An outgoing `send_message` call: text, whether `parse_mode="HTML"`
was passed, and the optional link-preview options
(`show_above_text`, `url`). -/
structure OutMessage where
  text : String
  htmlMode : Bool
  previewAboveText : Bool
  previewUrl : Option String
deriving DecidableEq

/-- The generic not-found reply (bot.py:242). -/
def notFoundGenericMsg : OutMessage :=
  ⟨"Набор не найден!", false, false, none⟩

/-- The digit-echoing not-found reply (bot.py:240). -/
def notFoundMsg (num_s : String) : OutMessage :=
  ⟨⟨("Набор ").data ++ num_s.data ++ (" не найден!").data⟩, false, false, none⟩

/-- The MOC reply (bot.py:224-236): HTML text with the MOC link,
link preview requested above the text. -/
def mocMsg (num : Nat) : OutMessage :=
  ⟨⟨("Похоже на MOC 🔎\nID: <b>").data ++ (natRepr num).data ++ ("</b>\n\n🔗 <a href=\x27").data
      ++ (moc_url_for_id num).data ++ ("\x27><b>Rebrickable</b></a>").data⟩,
    true, true, some (moc_url_for_id num)⟩

/-- The reply chosen by the `except` branch of `unified_message_handler`
(bot.py:205-243): on a not-found error, re-extract the first digit run
from the stripped raw text; no digits gives the generic reply, a 6-digit
(decimal form of the parsed value) number gives the MOC reply, anything
else echoes the digit run; on any other error, no reply. -/
def fallback_responder (errText msgText : String) : Option OutMessage :=
  if is_not_found_error errText then
    match firstRun (pyStrip msgText.data) with
    | none => some notFoundGenericMsg
    | some ds =>
      let num := digitsToNat ds
      if looks_like_moc_id num then some (mocMsg num)
      else some (notFoundMsg ⟨ds⟩)
  else none

/-- The whole `except` branch: the printed log line
(`f"{ts}|{chat_name}|{message.chat.id} - {err}"`, bot.py:208) paired
with the chosen reply. -/
def handle_error (ts chatName : String) (chatId : Int) (errText msgText : String) :
    String × Option OutMessage :=
  (⟨ts.data ++ [ '|' ] ++ chatName.data ++ [ '|' ] ++ (intStr chatId).data
      ++ (" - ").data ++ errText.data⟩,
    fallback_responder errText msgText)

/-- Telegram chat kinds distinguished by the handler. -/
inductive ChatKind where
  | privateChat
  | group
  | supergroup
  | other
deriving DecidableEq

/-- What the happy path of `unified_message_handler` does before any
lookup: nothing, the private usage prompt, or a catalog lookup
(`send_set`). -/
inductive MainAction where
  | silent
  | softPrompt (msg : String) (htmlMode : Bool)
  | lookup (setId : Nat)
deriving DecidableEq

/-- The private usage prompt (bot.py:196-200). -/
def usagePromptText : String :=
  ⟨("Пришли номер набора, например <b>42177</b>\nВопросы: @pycarrot2").data⟩

/-- The dispatch of `unified_message_handler` (bot.py:183-203): group and
supergroup chats extract via the mention pattern and stay silent without
an identifier; private chats extract the bare number and prompt without
one; `if not set_id` treats both `None` and `0` as no identifier. -/
def unified_main (kind : ChatKind) (text botUsername : String) : MainAction :=
  match kind with
  | .group | .supergroup =>
    match extract_group_set_id text botUsername with
    | none => .silent
    | some set_id => if set_id = 0 then .silent else .lookup set_id
  | .privateChat =>
    match extract_private_set_id text with
    | none => .softPrompt usagePromptText true
    | some set_id =>
      if set_id = 0 then .softPrompt usagePromptText true else .lookup set_id
  | .other => .silent

/-- One escaped character of Python's `repr` on a string (model for
printable characters: backslash, the chosen quote and the common control
escapes; other characters pass through unchanged). -/
def pyReprEsc (q c : Char) : List Char :=
  if c = '\\' then [ '\\', '\\' ]
  else if c = q then [ '\\', q ]
  else if c = '\n' then [ '\\', 'n' ]
  else if c = '\r' then [ '\\', 'r' ]
  else if c = '\t' then [ '\\', 't' ]
  else [c]

/-- Python's `repr` on a string (the `!r` of the f-string in
`fetch_image_bytes`), modelled for printable characters: single quotes
unless the string holds a single quote and no double quote. -/
def pyRepr (s : String) : String :=
  let q := if s.data.contains '\x27' && !(s.data.contains '"') then '"' else '\x27'
  ⟨q :: (concatMapChars (pyReprEsc q) s.data ++ [q])⟩

/-- The HTTP GET issued by `fetch_image_bytes` (bot.py:43-46): fixed
user-agent header, redirects followed, timeout 20. -/
structure HttpRequest where
  url : String
  userAgent : String
  allowRedirects : Bool
  timeout : Nat
deriving DecidableEq

/-- The request `fetch_image_bytes` sends for a given URL. -/
def fetch_image_request (url : String) : HttpRequest :=
  ⟨url, "Mozilla/5.0 (compatible; LegoBot/1.0)", true, 20⟩

/-- The response the image host returns: status, declared content type
(`headers.get("Content-Type", "")` when missing), decoded body text and
raw body bytes. -/
structure HttpResponse where
  status : Nat
  contentType : Option String
  bodyText : String
  bodyBytes : List Nat
deriving DecidableEq

/-- Outcome of `fetch_image_bytes` (bot.py:43-52): the body bytes, or the
`raise_for_status` failure, or the `ValueError` for a non-image content
type. -/
inductive FetchResult where
  | ok (bytes : List Nat)
  | statusError (status : Nat)
  | notImage (msg : String)
deriving DecidableEq

/-- `fetch_image_bytes` (bot.py:43-52) as a function of the response:
`raise_for_status` raises for any status of 400 and above; then the
declared content type must begin with `image/`, otherwise a `ValueError`
carries the content type and the `repr` of the first 120 characters of
the body text. -/
def fetch_image_bytes (resp : HttpResponse) : FetchResult :=
  if 400 ≤ resp.status then .statusError resp.status
  else
    let ct := resp.contentType.getD ""
    if isPrefL (("image/").data) ct.data then .ok resp.bodyBytes
    else .notImage ⟨("Not an image. Content-Type=").data ++ ct.data
      ++ (". Sample=").data ++ (pyRepr ⟨resp.bodyText.data.take 120⟩).data⟩

/-- A platform exception raised by `bot.send_photo`: aiogram's
`TelegramBadRequest` (the only class `send_set` catches) or any other
exception, each carrying its message (`str(e)`). -/
inductive PlatExc where
  | badRequest (msg : String)
  | otherExc (msg : String)
deriving DecidableEq

/-- Outcome of one `bot.send_photo` call. -/
inductive SendOutcome where
  | sent
  | raised (e : PlatExc)
deriving DecidableEq

/-- The external world `send_set`'s delivery part interacts with: the
outcome of the direct-URL send, the image host's response for the
fallback GET, and the outcome of the byte re-send. -/
structure DeliverEnv where
  firstSend : SendOutcome
  imageResp : HttpResponse
  secondSend : SendOutcome
deriving DecidableEq

/-- The outbound calls `send_set` makes, in order. -/
inductive BotCall where
  | sendPhotoUrl (imageUrl caption : String) (htmlMode : Bool)
  | httpGet (url : String)
  | sendPhotoBytes (filename caption : String) (htmlMode : Bool)
deriving DecidableEq

/-- How the delivery part of `send_set` ends. -/
inductive DeliverResult where
  | delivered
  | platformError (e : PlatExc)
  | fetchFailure (r : FetchResult)
deriving DecidableEq

/-- The fixed substring `send_set` looks for in the platform error
(bot.py:154). -/
def wrongTypeSub : String :=
  "wrong type of the web page content"

/-- The delivery pipeline of `send_set` (bot.py:143-165): send the photo
by URL with the HTML caption; on a `TelegramBadRequest` whose message
holds the fixed substring, GET the image and re-send the bytes as
`set.jpg` with the same caption and parse mode; re-raise any other
error.  Returns the calls made (in order) and the outcome. -/
def send_set_deliver (imageUrl caption : String) (env : DeliverEnv) :
    List BotCall × DeliverResult :=
  let first := BotCall.sendPhotoUrl imageUrl caption true
  match env.firstSend with
  | .sent => ([first], .delivered)
  | .raised (.otherExc m) => ([first], .platformError (.otherExc m))
  | .raised (.badRequest m) =>
    if isSubL wrongTypeSub.data m.data then
      match fetch_image_bytes env.imageResp with
      | .ok _bytes =>
        match env.secondSend with
        | .sent =>
          ([first, .httpGet imageUrl, .sendPhotoBytes ("set.jpg") caption true],
            .delivered)
        | .raised e2 =>
          ([first, .httpGet imageUrl, .sendPhotoBytes ("set.jpg") caption true],
            .platformError e2)
      | r => ([first, .httpGet imageUrl], .fetchFailure r)
    else ([first], .platformError (.badRequest m))

theorem isPrefL_iff : ∀ (pat l : List Char), isPrefL pat l = true ↔ pat <+: l := by
  intro pat
  induction pat with
  | nil => intro l; simp [isPrefL]
  | cons p ps ih =>
    intro l
    cases l with
    | nil => simp [isPrefL]
    | cons c cs =>
      simp only [isPrefL, Bool.and_eq_true, decide_eq_true_eq, List.cons_prefix_cons]
      exact and_congr Iff.rfl (ih cs)

theorem isSubL_iff : ∀ (pat l : List Char), isSubL pat l = true ↔ pat <:+: l := by
  intro pat l
  induction l with
  | nil =>
    simp only [isSubL, List.isEmpty_iff]
    exact ⟨fun h => h ▸ List.infix_rfl, fun h => List.eq_nil_of_infix_nil h⟩
  | cons c cs ih =>
    simp only [isSubL, Bool.or_eq_true, isPrefL_iff, ih, List.infix_cons_iff]

theorem isSubL_of_middle (pat pre post : List Char) :
    isSubL pat (pre ++ pat ++ post) = true := by
  exact (isSubL_iff _ _).mpr ⟨pre, post, rfl⟩

/-- Members of `takeWhile p` satisfy `p`. -/
theorem mem_takeWhile_sat {p : Char → Bool} {l : List Char} {c : Char}
    (h : c ∈ l.takeWhile p) : p c = true :=
  List.mem_takeWhile_imp h

/-- What remains after `dropWhile p` starts with a `p`-failing character
(or is empty). -/
theorem headNotSat_dropWhile (p : Char → Bool) : ∀ l : List Char,
    headNotSat p (l.dropWhile p) := by
  intro l
  induction l with
  | nil => trivial
  | cons c cs ih =>
    by_cases h : p c = true
    · simpa [List.dropWhile_cons, h] using ih
    · simp only [List.dropWhile_cons, h]
      simp only [Bool.not_eq_true] at h
      simpa [headNotSat] using h

/-- A maximal run decomposition is unique: `takeWhile`/`dropWhile` over
`a ++ b` with `a` all satisfying and `b` not continuing the run. -/
theorem takeWhile_dropWhile_append {p : Char → Bool} :
    ∀ {a b : List Char}, (∀ c ∈ a, p c = true) → headNotSat p b →
      (a ++ b).takeWhile p = a ∧ (a ++ b).dropWhile p = b := by
  intro a
  induction a with
  | nil =>
    intro b _ hb
    cases b with
    | nil => simp
    | cons c cs =>
      simp only [headNotSat] at hb
      simp [List.takeWhile_cons, List.dropWhile_cons, hb]
  | cons x xs ih =>
    intro b ha hb
    have hx : p x = true := ha x (List.mem_cons_self x xs)
    have := ih (fun c hc => ha c (List.mem_cons_of_mem x hc)) hb
    simp [List.takeWhile_cons, List.dropWhile_cons, hx, this.1, this.2]

/-- Digits are not whitespace. -/
theorem isDigit_not_space {c : Char} (h : c.isDigit = true) : isPySpace c = false := by
  by_contra hs
  simp only [Bool.not_eq_false, isPySpace, Bool.or_eq_true, decide_eq_true_eq] at hs
  rcases hs with ((((h1 | h1) | h1) | h1) | h1) | h1 <;> subst h1 <;>
    exact absurd h (by decide)

/-- The hyphen is not a digit. -/
theorem hyphen_not_digit : Char.isDigit '-' = false := by decide

/-- The hyphen is not whitespace. -/
theorem hyphen_not_space : isPySpace '-' = false := by decide

theorem digitChar_isDigit (n : Nat) : (digitChar n).isDigit = true := by
  unfold digitChar
  split <;> decide

theorem natDigitsAux_all_digit : ∀ (fuel n : Nat),
    ∀ c ∈ natDigitsAux fuel n, c.isDigit = true := by
  intro fuel
  induction fuel with
  | zero => intro n c hc; simp [natDigitsAux] at hc
  | succ fuel ih =>
    intro n c hc
    simp only [natDigitsAux] at hc
    by_cases h : n < 10
    · simp only [if_pos h, List.mem_singleton] at hc
      exact hc ▸ digitChar_isDigit n
    · simp only [if_neg h, List.mem_append, List.mem_singleton] at hc
      rcases hc with hc | hc
      · exact ih (n / 10) c hc
      · exact hc ▸ digitChar_isDigit (n % 10)

theorem natRepr_all_digit (n : Nat) : ∀ c ∈ (natRepr n).data, c.isDigit = true :=
  natDigitsAux_all_digit (n + 1) n

theorem intStr_chars (i : Int) : ∀ c ∈ (intStr i).data, c.isDigit = true ∨ c = '-' := by
  intro c hc
  simp only [intStr] at hc
  by_cases h : i < 0
  · simp only [if_pos h, List.mem_cons] at hc
    rcases hc with hc | hc
    · exact Or.inr hc
    · exact Or.inl (natRepr_all_digit _ c hc)
  · simp only [if_neg h] at hc
    exact Or.inl (natRepr_all_digit _ c hc)

theorem escChar_count_zero {t : Char}
    (ht : t = '<' ∨ t = '>' ∨ t = '"' ∨ t = '\x27') (c : Char) :
    (escChar c).count t = 0 := by
  unfold escChar
  split_ifs with h1 h2 h3 h4 h5
  · rcases ht with h | h | h | h <;> subst h <;> decide
  · rcases ht with h | h | h | h <;> subst h <;> decide
  · rcases ht with h | h | h | h <;> subst h <;> decide
  · rcases ht with h | h | h | h <;> subst h <;> decide
  · rcases ht with h | h | h | h <;> subst h <;> decide
  · have : c ≠ t := by
      rcases ht with h | h | h | h <;> subst h <;> assumption
    simp [List.count_cons, this]

theorem escapeList_count_zero {t : Char}
    (ht : t = '<' ∨ t = '>' ∨ t = '"' ∨ t = '\x27') (l : List Char) :
    (escapeList l).count t = 0 := by
  induction l with
  | nil => rfl
  | cons c cs ih =>
    simp only [escapeList, concatMapChars, List.count_append] at *
    rw [escChar_count_zero ht, ih]

/-- Any character of the input reappears (image-wise) in the escaped
output: its `escChar` image is a contiguous substring. -/
theorem escChar_infix_escapeList {c : Char} : ∀ {l : List Char}, c ∈ l →
    escChar c <:+: escapeList l := by
  intro l
  induction l with
  | nil => intro h; cases h
  | cons a tl ih =>
    intro h
    rcases List.mem_cons.mp h with h | h
    · subst h
      exact ⟨[], concatMapChars escChar tl, rfl⟩
    · obtain ⟨s, t, hst⟩ := ih h
      refine ⟨escChar a ++ s, t, ?_⟩
      show escChar a ++ s ++ escChar c ++ t = escChar a ++ escapeList tl
      rw [← hst]
      simp [List.append_assoc]

/-- Characters whose classification shows they cannot be markup-special. -/
theorem count_zero_of_digit_dash_dash {l : List Char}
    (h : ∀ c ∈ l, c.isDigit = true ∨ c = '-' ∨ c = '—') {t : Char}
    (ht : t = '<' ∨ t = '>' ∨ t = '"' ∨ t = '\x27') : l.count t = 0 := by
  rw [List.count_eq_zero]
  intro hmem
  rcases h t hmem with hd | hd | hd
  · rcases ht with h1 | h1 | h1 | h1 <;> subst h1 <;> simp_all
  · rcases ht with h1 | h1 | h1 | h1 <;> subst h1 <;> simp_all
  · rcases ht with h1 | h1 | h1 | h1 <;> subst h1 <;> simp_all

/-- Whitespace is not a digit. -/
theorem isSpace_not_digit {c : Char} (h : isPySpace c = true) : c.isDigit = false := by
  by_cases hd : c.isDigit = true
  · rw [isDigit_not_space hd] at h; cases h
  · simpa using hd

theorem headNotSat_digit_of_tail {tl : List Char}
    (h : (∀ c ∈ tl, isPySpace c = true) ∨
      ∃ ds2 ws2, tl = '-' :: (ds2 ++ ws2) ∧ ds2 ≠ [] ∧
        (∀ c ∈ ds2, c.isDigit = true) ∧ (∀ c ∈ ws2, isPySpace c = true)) :
    headNotSat Char.isDigit tl := by
  rcases h with h | ⟨ds2, ws2, rfl, _, _, _⟩
  · cases tl with
    | nil => trivial
    | cons c r => exact isSpace_not_digit (h c (List.mem_cons_self c r))
  · exact hyphen_not_digit

theorem privTail_nil (ds : List Char) : privTail ds [] = some (digitsToNat ds) := rfl

theorem privTail_cons (ds : List Char) (c : Char) (r : List Char) :
    privTail ds (c :: r) =
      if c = '-' then
        if (r.takeWhile Char.isDigit).isEmpty then none
        else if (r.dropWhile Char.isDigit).all isPySpace then some (digitsToNat ds)
        else none
      else if (c :: r).all isPySpace then some (digitsToNat ds) else none := rfl

theorem extract_private_eq_some_iff (text : String) (n : Nat) :
    extract_private_set_id text = some n ↔ PrivMatchP text.data n := by
  constructor
  · intro h
    unfold extract_private_set_id at h
    by_cases he : text.data.isEmpty
    · rw [if_pos he] at h; cases h
    · rw [if_neg he] at h
      simp only [] at h
      set l1 := text.data.dropWhile isPySpace with hl1
      set ds := l1.takeWhile Char.isDigit with hds
      by_cases hdse : ds.isEmpty
      · rw [if_pos hdse] at h; cases h
      · rw [if_neg hdse] at h
        have hdsne : ds ≠ [] := List.isEmpty_eq_false.mp (by simpa using hdse)
        have hdsdig : ∀ c ∈ ds, c.isDigit = true := fun c hc => mem_takeWhile_sat hc
        have hsplit : text.data = text.data.takeWhile isPySpace ++ (ds ++ l1.dropWhile Char.isDigit) := by
          rw [hds, List.takeWhile_append_dropWhile, hl1, List.takeWhile_append_dropWhile]
        have hws1 : ∀ c ∈ text.data.takeWhile isPySpace, isPySpace c = true :=
          fun c hc => mem_takeWhile_sat hc
        cases hrest : l1.dropWhile Char.isDigit with
        | nil =>
          rw [hrest] at h hsplit
          rw [privTail_nil] at h
          exact ⟨_, ds, [], by simpa using hsplit, hws1, hdsne, hdsdig,
            by simpa using h.symm, Or.inl (by intro c hc; cases hc)⟩
        | cons c r =>
          rw [hrest] at h hsplit
          rw [privTail_cons] at h
          by_cases hc : c = '-'
          · subst hc
            rw [if_pos rfl] at h
            by_cases h2 : (r.takeWhile Char.isDigit).isEmpty
            · rw [if_pos h2] at h; cases h
            · rw [if_neg h2] at h
              by_cases h3 : (r.dropWhile Char.isDigit).all isPySpace
              · rw [if_pos h3] at h
                refine ⟨_, ds, '-' :: r, by rw [List.append_assoc]; exact hsplit, hws1, hdsne,
                  hdsdig, by simpa using h.symm,
                  Or.inr ⟨r.takeWhile Char.isDigit, r.dropWhile Char.isDigit,
                    by rw [List.takeWhile_append_dropWhile],
                    List.isEmpty_eq_false.mp (by simpa using h2),
                    fun c hc => mem_takeWhile_sat hc,
                    List.all_eq_true.mp h3⟩⟩
              · rw [if_neg h3] at h; cases h
          · rw [if_neg hc] at h
            by_cases h3 : (c :: r).all isPySpace
            · rw [if_pos h3] at h
              exact ⟨_, ds, c :: r, by rw [List.append_assoc]; exact hsplit, hws1, hdsne, hdsdig,
                by simpa using h.symm, Or.inl (List.all_eq_true.mp h3)⟩
            · rw [if_neg h3] at h; cases h
  · rintro ⟨ws1, ds, tl, hEq, hws1, hdsne, hdsdig, hn, htl⟩
    have hne : text.data ≠ [] := by
      rw [hEq]
      intro h0
      exact hdsne (List.append_eq_nil.mp (List.append_eq_nil.mp h0).1).2
    have hheadds : headNotSat isPySpace (ds ++ tl) := by
      cases ds with
      | nil => exact absurd rfl hdsne
      | cons d dr =>
        exact isDigit_not_space (hdsdig d (List.mem_cons_self d dr))
    have hdw : (text.data.dropWhile isPySpace) = ds ++ tl := by
      rw [hEq, List.append_assoc]
      exact (takeWhile_dropWhile_append hws1 hheadds).2
    have htw : (ds ++ tl).takeWhile Char.isDigit = ds ∧
        (ds ++ tl).dropWhile Char.isDigit = tl :=
      takeWhile_dropWhile_append hdsdig (headNotSat_digit_of_tail htl)
    unfold extract_private_set_id
    rw [if_neg (by simpa using hne)]
    simp only []
    rw [hdw, htw.1, if_neg (by simpa using hdsne), htw.2]
    rcases htl with hsp | ⟨ds2, ws2, rfl, hds2ne, hds2dig, hws2⟩
    · cases tl with
      | nil => rw [privTail_nil, hn]
      | cons c r =>
        have hcsp : isPySpace c = true := hsp c (List.mem_cons_self c r)
        have hcne : c ≠ '-' := by
          intro h0; subst h0; rw [hyphen_not_space] at hcsp; cases hcsp
        rw [privTail_cons, if_neg hcne, if_pos (List.all_eq_true.mpr hsp), hn]
    · have hds2 : (ds2 ++ ws2).takeWhile Char.isDigit = ds2 ∧
          (ds2 ++ ws2).dropWhile Char.isDigit = ws2 := by
        apply takeWhile_dropWhile_append hds2dig
        cases ws2 with
        | nil => trivial
        | cons w wr => exact isSpace_not_digit (hws2 w (List.mem_cons_self w wr))
      rw [privTail_cons, if_pos rfl, hds2.1, if_neg (by simpa using hds2ne), hds2.2,
        if_pos (List.all_eq_true.mpr hws2), hn]

theorem matchAtP_nil_false {pat : List Char} {n : Nat} (h : MatchAtP pat [] n) : False := by
  obtain ⟨seg, ws, ds, rest, hEq, -, hws, -, -, -, -, -⟩ := h
  exact hws (List.append_eq_nil.mp
    (List.append_eq_nil.mp (List.append_eq_nil.mp hEq.symm).1).1).2

theorem matchAt_eq_some_iff (pat l : List Char) (n : Nat) :
    matchAt pat l = some n ↔ MatchAtP pat l n := by
  constructor
  · intro h
    unfold matchAt at h
    by_cases hseg : lowerL (l.take pat.length) = pat
    · rw [if_pos hseg] at h
      simp only [] at h
      set r := l.drop pat.length with hr
      by_cases hws : (r.takeWhile isPySpace).isEmpty
      · rw [if_pos hws] at h; cases h
      · rw [if_neg hws] at h
        by_cases hds : ((r.dropWhile isPySpace).takeWhile Char.isDigit).isEmpty
        · rw [if_pos hds] at h; cases h
        · rw [if_neg hds] at h
          refine ⟨l.take pat.length, r.takeWhile isPySpace,
            (r.dropWhile isPySpace).takeWhile Char.isDigit,
            (r.dropWhile isPySpace).dropWhile Char.isDigit, ?_, hseg,
            List.isEmpty_eq_false.mp (by simpa using hws),
            fun c hc => mem_takeWhile_sat hc,
            List.isEmpty_eq_false.mp (by simpa using hds),
            fun c hc => mem_takeWhile_sat hc,
            headNotSat_dropWhile Char.isDigit _, by simpa using h.symm⟩
          rw [List.append_assoc, List.append_assoc,
            List.takeWhile_append_dropWhile, List.takeWhile_append_dropWhile]
          exact (List.take_append_drop pat.length l).symm
    · rw [if_neg hseg] at h; cases h
  · rintro ⟨seg, ws, ds, rest, hEq, hseg, hwsne, hws, hdsne, hds, hrest, hn⟩
    have hlen : seg.length = pat.length := by
      rw [← hseg]; exact (List.length_map seg Char.toLower).symm
    have hEq' : l = seg ++ (ws ++ ds ++ rest) := by
      rw [hEq]; simp [List.append_assoc]
    have htake : l.take pat.length = seg := by
      rw [hEq', ← hlen]; exact List.take_left seg _
    have hdrop : l.drop pat.length = ws ++ ds ++ rest := by
      rw [hEq', ← hlen]; exact List.drop_left seg _
    have hheadws : headNotSat isPySpace (ds ++ rest) := by
      cases ds with
      | nil => exact absurd rfl hdsne
      | cons d dr => exact isDigit_not_space (hds d (List.mem_cons_self d dr))
    have hws2 : (ws ++ (ds ++ rest)).takeWhile isPySpace = ws ∧
        (ws ++ (ds ++ rest)).dropWhile isPySpace = ds ++ rest :=
      takeWhile_dropWhile_append hws hheadws
    have hds2 : (ds ++ rest).takeWhile Char.isDigit = ds ∧
        (ds ++ rest).dropWhile Char.isDigit = rest :=
      takeWhile_dropWhile_append hds hrest
    unfold matchAt
    rw [htake, if_pos hseg]
    simp only []
    rw [hdrop, List.append_assoc, hws2.1, hws2.2, hds2.1,
      if_neg (by simpa using hwsne), if_neg (by simpa using hdsne), hn]

theorem searchFrom_eq_some_iff (pat : List Char) : ∀ (l : List Char) (n : Nat),
    searchFrom pat l = some n ↔
      ∃ k, MatchAtP pat (l.drop k) n ∧ NoMatchBefore pat l k := by
  intro l
  induction l with
  | nil =>
    intro n
    constructor
    · intro h; cases h
    · rintro ⟨k, hk, -⟩
      rw [List.drop_nil] at hk
      exact absurd hk (fun h => matchAtP_nil_false h)
  | cons c tl ih =>
    intro n
    constructor
    · intro h
      unfold searchFrom at h
      cases hm : matchAt pat (c :: tl) with
      | some m =>
        rw [hm] at h
        cases h
        exact ⟨0, by rw [List.drop_zero]; exact (matchAt_eq_some_iff _ _ _).mp hm,
          fun j hj => absurd hj (Nat.not_lt_zero j)⟩
      | none =>
        rw [hm] at h
        obtain ⟨k, hk, hnb⟩ := (ih n).mp h
        refine ⟨k + 1, by rwa [List.drop_succ_cons], ?_⟩
        intro j hj m hmp
        cases j with
        | zero =>
          rw [List.drop_zero] at hmp
          rw [(matchAt_eq_some_iff pat (c :: tl) m).mpr hmp] at hm
          cases hm
        | succ j' =>
          rw [List.drop_succ_cons] at hmp
          exact hnb j' (Nat.lt_of_succ_lt_succ hj) m hmp
    · rintro ⟨k, hk, hnb⟩
      unfold searchFrom
      cases hm : matchAt pat (c :: tl) with
      | some m =>
        cases k with
        | zero =>
          rw [List.drop_zero] at hk
          rw [(matchAt_eq_some_iff pat (c :: tl) n).mpr hk] at hm
          cases hm
          rfl
        | succ k' =>
          exfalso
          have h0 := hnb 0 (Nat.succ_pos k') m
          rw [List.drop_zero] at h0
          exact h0 ((matchAt_eq_some_iff pat (c :: tl) m).mp hm)
      | none =>
        cases k with
        | zero =>
          rw [List.drop_zero] at hk
          rw [(matchAt_eq_some_iff pat (c :: tl) n).mpr hk] at hm
          cases hm
        | succ k' =>
          rw [List.drop_succ_cons] at hk
          exact (ih n).mpr ⟨k', hk, fun j hj m hmp => hnb (j + 1)
            (Nat.succ_lt_succ hj) m (by rwa [List.drop_succ_cons])⟩

theorem extract_group_eq_some_iff (text botUsername : String) (n : Nat) :
    extract_group_set_id text botUsername = some n ↔
      ((normalize_bot_username botUsername).data ≠ [] ∧
        ∃ k, MatchAtP (mentionPat (normalize_bot_username botUsername).data)
            (text.data.drop k) n ∧
          NoMatchBefore (mentionPat (normalize_bot_username botUsername).data)
            text.data k) := by
  unfold extract_group_set_id
  by_cases hte : text.data.isEmpty
  · rw [if_pos hte]
    have htd : text.data = [] := List.isEmpty_iff.mp hte
    constructor
    · intro h; cases h
    · rintro ⟨-, k, hk, -⟩
      rw [htd, List.drop_nil] at hk
      exact absurd hk (fun h => matchAtP_nil_false h)
  · rw [if_neg hte]
    simp only []
    by_cases hu : (normalize_bot_username botUsername).data.isEmpty
    · rw [if_pos hu]
      constructor
      · intro h; cases h
      · rintro ⟨hne, -⟩
        exact absurd (List.isEmpty_iff.mp hu) hne
    · rw [if_neg hu]
      rw [searchFrom_eq_some_iff]
      exact (and_iff_right (List.isEmpty_eq_false.mp (by simpa using hu))).symm

theorem firstRun_eq_some_iff : ∀ (l ds : List Char),
    firstRun l = some ds ↔ IsLeftmostRun l ds := by
  intro l
  induction l with
  | nil =>
    intro ds
    constructor
    · intro h; cases h
    · rintro ⟨pre, post, hEq, hne, -, -, -⟩
      exact absurd (List.append_eq_nil.mp (List.append_eq_nil.mp hEq.symm).1).2 hne
  | cons c tl ih =>
    intro ds
    unfold firstRun
    by_cases hc : c.isDigit = true
    · rw [if_pos hc]
      constructor
      · intro h
        cases h
        refine ⟨[], (c :: tl).dropWhile Char.isDigit, ?_, ?_,
          fun x hx => mem_takeWhile_sat hx, fun x hx => absurd hx (List.not_mem_nil x),
          headNotSat_dropWhile Char.isDigit (c :: tl)⟩
        · rw [List.nil_append, List.takeWhile_append_dropWhile]
        · simp [List.takeWhile_cons, hc]
      · rintro ⟨pre, post, hEq, hne, hdig, hpre, hpost⟩
        cases pre with
        | cons p pr =>
          exfalso
          have : p = c := by
            have := congrArg (List.head? ·) hEq
            simpa using this.symm
          rw [← this] at hc
          rw [hpre p (List.mem_cons_self p pr)] at hc
          cases hc
        | nil =>
          rw [List.nil_append] at hEq
          have := takeWhile_dropWhile_append hdig hpost
          rw [hEq, this.1]
    · rw [if_neg hc]
      rw [ih ds]
      constructor
      · rintro ⟨pre, post, hEq, hne, hdig, hpre, hpost⟩
        refine ⟨c :: pre, post, by rw [hEq]; simp, hne, hdig, ?_, hpost⟩
        intro x hx
        rcases List.mem_cons.mp hx with hx | hx
        · subst hx; simpa using hc
        · exact hpre x hx
      · rintro ⟨pre, post, hEq, hne, hdig, hpre, hpost⟩
        cases pre with
        | nil =>
          exfalso
          rw [List.nil_append] at hEq
          cases ds with
          | nil => exact hne rfl
          | cons d dr =>
            have : d = c := by
              have := congrArg (List.head? ·) hEq
              simpa using this.symm
            rw [← this] at hc
            exact hc (hdig d (List.mem_cons_self d dr))
        | cons p pr =>
          have hpc : pr ++ ds ++ post = tl := by
            have := congrArg (List.tail ·) hEq
            simpa using this.symm
          exact ⟨pr, post, hpc.symm, hne, hdig,
            fun x hx => hpre x (List.mem_cons_of_mem p hx), hpost⟩

theorem append_ne_nil_left {a : List Char} (ha : a ≠ []) (b : List Char) :
    a ++ b ≠ [] :=
  fun h => ha (List.append_eq_nil.mp h).1

theorem not_isEmpty_of_ne_nil {a : List Char} (ha : a ≠ []) : (!a.isEmpty) = true := by
  cases a with
  | nil => exact absurd rfl ha
  | cons c cs => rfl

theorem joinNL_cons_cons (a b : List Char) (ls : List (List Char)) :
    joinNL (a :: b :: ls) = a ++ '\n' :: joinNL (b :: ls) := rfl

/-- Merging a line end, the join newline and the next line's literal head
into one literal segment. -/
theorem lit_newline_lit {a b c : List Char} (h : a ++ '\n' :: b = c) (R : List Char) :
    a ++ ('\n' :: (b ++ R)) = c ++ R := by
  subst h
  simp [List.append_assoc]

/-- Merging two adjacent literal segments. -/
theorem lit_glue {a b c : List Char} (h : a ++ b = c) (R : List Char) :
    a ++ (b ++ R) = c ++ R := by
  subst h
  simp [List.append_assoc]

theorem format_set_html_fst_data (d : SetData) :
    (format_set_html d).1.data = captSpec d := by
  by_cases hurl : (stripStr d.set_url).data.isEmpty
  · simp [format_set_html, captSpec, hurl, joinNL, List.filter_cons, List.cons_append,
      List.append_assoc]
  · simp [format_set_html, captSpec, hurl, joinNL, List.filter_cons, List.cons_append,
      List.append_assoc]

theorem optStr_chars (o : Option Int) :
    ∀ c ∈ (optStr o).data, c.isDigit = true ∨ c = '-' ∨ c = '—' := by
  intro c hc
  cases o with
  | none =>
    simp only [optStr] at hc
    rcases List.mem_singleton.mp hc with rfl
    exact Or.inr (Or.inr rfl)
  | some v =>
    rcases intStr_chars v c hc with h | h
    · exact Or.inl h
    · exact Or.inr (Or.inl h)

theorem optStr_count_zero {t : Char}
    (ht : t = '<' ∨ t = '>' ∨ t = '"' ∨ t = '\x27') (o : Option Int) :
    ((optStr o).data).count t = 0 :=
  count_zero_of_digit_dash_dash (optStr_chars o) ht

theorem escName_infix_captSpec (d : SetData) :
    escapeList (stripStr d.name).data <:+: captSpec d :=
  ⟨("ID: <b>").data ++ escapeList (set_num_clean (stripStr d.set_num)).data
      ++ ("</b>\nНазвание: <b>").data,
    ("</b> (").data ++ (optStr d.year).data
      ++ (")\nДеталей: <b>").data ++ (optStr d.num_parts).data ++ ("</b>\n\n").data
      ++ (if (stripStr d.set_url).data.isEmpty then []
          else ("🔗 <a href=\"").data ++ escapeList (stripStr d.set_url).data
            ++ ("\"><b>Rebrickable</b></a>\n").data)
      ++ ("🧱 <a href=\"").data
      ++ escapeList (("https://www.lego.com/en-us/search?q=").data
          ++ (set_num_clean (stripStr d.set_num)).data)
      ++ ("\">Lego</a> <i></i>").data,
    by simp [captSpec, List.append_assoc]⟩

theorem escId_infix_captSpec (d : SetData) :
    escapeList (set_num_clean (stripStr d.set_num)).data <:+: captSpec d :=
  ⟨("ID: <b>").data,
    ("</b>\nНазвание: <b>").data ++ escapeList (stripStr d.name).data
      ++ ("</b> (").data ++ (optStr d.year).data
      ++ (")\nДеталей: <b>").data ++ (optStr d.num_parts).data ++ ("</b>\n\n").data
      ++ (if (stripStr d.set_url).data.isEmpty then []
          else ("🔗 <a href=\"").data ++ escapeList (stripStr d.set_url).data
            ++ ("\"><b>Rebrickable</b></a>\n").data)
      ++ ("🧱 <a href=\"").data
      ++ escapeList (("https://www.lego.com/en-us/search?q=").data
          ++ (set_num_clean (stripStr d.set_num)).data)
      ++ ("\">Lego</a> <i></i>").data,
    by simp [captSpec, List.append_assoc]⟩

theorem escUrl_infix_captSpec (d : SetData)
    (h : (stripStr d.set_url).data.isEmpty = false) :
    escapeList (stripStr d.set_url).data <:+: captSpec d :=
  ⟨("ID: <b>").data ++ escapeList (set_num_clean (stripStr d.set_num)).data
      ++ ("</b>\nНазвание: <b>").data ++ escapeList (stripStr d.name).data
      ++ ("</b> (").data ++ (optStr d.year).data
      ++ (")\nДеталей: <b>").data ++ (optStr d.num_parts).data ++ ("</b>\n\n").data
      ++ ("🔗 <a href=\"").data,
    ("\"><b>Rebrickable</b></a>\n").data
      ++ ("🧱 <a href=\"").data
      ++ escapeList (("https://www.lego.com/en-us/search?q=").data
          ++ (set_num_clean (stripStr d.set_num)).data)
      ++ ("\">Lego</a> <i></i>").data,
    by simp [captSpec, h, List.append_assoc]⟩

/-- `captSpec` with the source-link line absent. -/
theorem captSpec_of_empty (d : SetData)
    (h : (stripStr d.set_url).data.isEmpty = true) :
    captSpec d =
      ("ID: <b>").data ++ escapeList (set_num_clean (stripStr d.set_num)).data
        ++ ("</b>\nНазвание: <b>").data ++ escapeList (stripStr d.name).data
        ++ ("</b> (").data ++ (optStr d.year).data
        ++ (")\nДеталей: <b>").data ++ (optStr d.num_parts).data ++ ("</b>\n\n").data
        ++ [] ++ ("🧱 <a href=\"").data
        ++ escapeList (("https://www.lego.com/en-us/search?q=").data
            ++ (set_num_clean (stripStr d.set_num)).data)
        ++ ("\">Lego</a> <i></i>").data := by
  unfold captSpec
  rw [if_pos h]

/-- `captSpec` with the source-link line present. -/
theorem captSpec_of_nonempty (d : SetData)
    (h : (stripStr d.set_url).data.isEmpty = false) :
    captSpec d =
      ("ID: <b>").data ++ escapeList (set_num_clean (stripStr d.set_num)).data
        ++ ("</b>\nНазвание: <b>").data ++ escapeList (stripStr d.name).data
        ++ ("</b> (").data ++ (optStr d.year).data
        ++ (")\nДеталей: <b>").data ++ (optStr d.num_parts).data ++ ("</b>\n\n").data
        ++ (("🔗 <a href=\"").data ++ escapeList (stripStr d.set_url).data
            ++ ("\"><b>Rebrickable</b></a>\n").data)
        ++ ("🧱 <a href=\"").data
        ++ escapeList (("https://www.lego.com/en-us/search?q=").data
            ++ (set_num_clean (stripStr d.set_num)).data)
        ++ ("\">Lego</a> <i></i>").data := by
  unfold captSpec
  rw [if_neg (by simp [h])]

theorem captSpec_count_lt (d : SetData) :
    (captSpec d).count '<' =
      if (stripStr d.set_url).data.isEmpty then 10 else 14 := by
  cases hurl : (stripStr d.set_url).data.isEmpty
  · rw [if_neg (by simp [hurl]), captSpec_of_nonempty d hurl]
    simp only [List.count_append, escapeList_count_zero (Or.inl rfl),
      optStr_count_zero (Or.inl rfl)]
    decide
  · rw [if_pos rfl, captSpec_of_empty d hurl]
    simp only [List.count_append, escapeList_count_zero (Or.inl rfl),
      optStr_count_zero (Or.inl rfl)]
    decide

theorem captSpec_count_gt (d : SetData) :
    (captSpec d).count '>' =
      if (stripStr d.set_url).data.isEmpty then 10 else 14 := by
  cases hurl : (stripStr d.set_url).data.isEmpty
  · rw [if_neg (by simp [hurl]), captSpec_of_nonempty d hurl]
    simp only [List.count_append, escapeList_count_zero (Or.inr (Or.inl rfl)),
      optStr_count_zero (Or.inr (Or.inl rfl))]
    decide
  · rw [if_pos rfl, captSpec_of_empty d hurl]
    simp only [List.count_append, escapeList_count_zero (Or.inr (Or.inl rfl)),
      optStr_count_zero (Or.inr (Or.inl rfl))]
    decide

theorem captSpec_count_quot (d : SetData) :
    (captSpec d).count '"' =
      if (stripStr d.set_url).data.isEmpty then 2 else 4 := by
  cases hurl : (stripStr d.set_url).data.isEmpty
  · rw [if_neg (by simp [hurl]), captSpec_of_nonempty d hurl]
    simp only [List.count_append, escapeList_count_zero (Or.inr (Or.inr (Or.inl rfl))),
      optStr_count_zero (Or.inr (Or.inr (Or.inl rfl)))]
    decide
  · rw [if_pos rfl, captSpec_of_empty d hurl]
    simp only [List.count_append, escapeList_count_zero (Or.inr (Or.inr (Or.inl rfl))),
      optStr_count_zero (Or.inr (Or.inr (Or.inl rfl)))]
    decide

theorem captSpec_count_apos (d : SetData) :
    (captSpec d).count '\x27' = 0 := by
  cases hurl : (stripStr d.set_url).data.isEmpty
  · rw [captSpec_of_nonempty d hurl]
    simp only [List.count_append, escapeList_count_zero (Or.inr (Or.inr (Or.inr rfl))),
      optStr_count_zero (Or.inr (Or.inr (Or.inr rfl)))]
    decide
  · rw [captSpec_of_empty d hurl]
    simp only [List.count_append, escapeList_count_zero (Or.inr (Or.inr (Or.inr rfl))),
      optStr_count_zero (Or.inr (Or.inr (Or.inr rfl)))]
    decide

/-- C1: for every private-chat text, `extract_private_set_id` returns the
digit run before any hyphen parsed as an integer exactly when the text,
after surrounding whitespace, consists of digits optionally followed by
a hyphen and more digits (the spec's `^\s*\d+(-\d+)?\s*$` in full,
captured by `PrivMatchP`); every other text, the empty text included,
returns absent. -/
theorem C1_private_extraction (text : String) :
    (∀ n, extract_private_set_id text = some n ↔ PrivMatchP text.data n) ∧
    (extract_private_set_id text = none ↔ ∀ m, ¬ PrivMatchP text.data m) := by
  refine ⟨fun n => extract_private_eq_some_iff text n, ?_, ?_⟩
  · intro h m hm
    rw [(extract_private_eq_some_iff text m).mpr hm] at h
    cases h
  · intro h
    cases hx : extract_private_set_id text with
    | none => rfl
    | some m => exact absurd ((extract_private_eq_some_iff text m).mp hx) (h m)

/-- C1 witness: the concrete private text `" 42177-1 "` matches with
value `42177`. -/
theorem C1_private_extraction_witness : PrivMatchP ((" 42177-1 ").data) 42177 :=
  ((C1_private_extraction (" 42177-1 ")).1 42177).mp (by decide)

/-- C2: for every group text and bot handle, `extract_group_set_id`
returns the digit run of the leftmost case-insensitive occurrence of
`@handle` followed by whitespace and digits (`MatchAtP`, the optional
hyphen suffix ignored), and returns absent when the normalized handle is
empty or no such occurrence exists. -/
theorem C2_group_extraction (text botUsername : String) :
    (∀ n, extract_group_set_id text botUsername = some n ↔
      ((normalize_bot_username botUsername).data ≠ [] ∧
        ∃ k, MatchAtP (mentionPat (normalize_bot_username botUsername).data)
            (text.data.drop k) n ∧
          NoMatchBefore (mentionPat (normalize_bot_username botUsername).data)
            text.data k)) ∧
    ((normalize_bot_username botUsername).data = [] →
      extract_group_set_id text botUsername = none) := by
  refine ⟨fun n => extract_group_eq_some_iff text botUsername n, ?_⟩
  intro h
  unfold extract_group_set_id
  by_cases hte : text.data.isEmpty
  · rw [if_pos hte]
  · rw [if_neg hte]
    simp only []
    rw [if_pos (by simp [h])]

/-- C2 witness: the handle `@LegoBot` is found case-insensitively inside
surrounding chatter, yielding `42177`. -/
theorem C2_group_extraction_witness :
    (normalize_bot_username ("@LegoBot")).data ≠ [] ∧
    ∃ k, MatchAtP (mentionPat (normalize_bot_username ("@LegoBot")).data)
        ((("hi @LEGOBOT  42177-1 ok").data).drop k) 42177 ∧
      NoMatchBefore (mentionPat (normalize_bot_username ("@LegoBot")).data)
        (("hi @LEGOBOT  42177-1 ok").data) k :=
  ((C2_group_extraction ("hi @LEGOBOT  42177-1 ok") ("@LegoBot")).1 42177).mp (by decide)

/-- C3 (amended): in the NotFound fallback the handler re-extracts the
first digit run of the raw text; no digits gives the generic
`Набор не найден!`; when the decimal form of the digit run's integer
value (leading zeros removed) has exactly 6 digits it replies with the
MOC message carrying `https://rebrickable.com/mocs/MOC-<id>/` and the
link preview above the text; otherwise it echoes the raw digit run in
`Набор <digits> не найден!`. -/
theorem C3_notfound_fallback (err text : String)
    (h : is_not_found_error err = true) :
    (firstRun (pyStrip text.data) = none →
      fallback_responder err text = some notFoundGenericMsg) ∧
    (∀ ds, firstRun (pyStrip text.data) = some ds →
      (((natRepr (digitsToNat ds)).length = 6 →
          fallback_responder err text = some (mocMsg (digitsToNat ds))) ∧
        ((natRepr (digitsToNat ds)).length ≠ 6 →
          fallback_responder err text = some (notFoundMsg ⟨ds⟩)))) := by
  constructor
  · intro h0
    unfold fallback_responder
    rw [if_pos h, h0]
  · intro ds hds
    constructor
    · intro h6
      unfold fallback_responder
      rw [if_pos h, hds]
      simp only [looks_like_moc_id]
      rw [if_pos (by simpa using h6)]
    · intro h6
      unfold fallback_responder
      rw [if_pos h, hds]
      simp only [looks_like_moc_id]
      rw [if_neg (by simpa using h6)]

/-- C3 witness: message `123456` on a 404 yields the MOC reply. -/
theorem C3_notfound_fallback_witness :
    fallback_responder ("404") ("123456") = some (mocMsg 123456) :=
  ((C3_notfound_fallback ("404") ("123456") (by decide)).2 (("123456").data)
    (by decide)).1 (by decide)

/-- C3 counterexample: the digit run `012345` has length exactly 6, yet
the code replies `Набор 012345 не найден!` rather than a MOC message,
because `looks_like_moc_id` measures `str(int(num_s))`, which drops the
leading zero. -/
theorem C3_counterexample :
    (firstRun (pyStrip (("012345").data))).map List.length = some 6 ∧
    is_not_found_error ("404") = true ∧
    fallback_responder ("404") ("012345") = some (notFoundMsg ("012345")) ∧
    fallback_responder ("404") ("012345") ≠
      some (mocMsg (digitsToNat (("012345").data))) :=
  ⟨by decide, by decide, by decide, by decide⟩

/-- C4: when the error text is not classified NotFound, the handler's
`except` branch only prints the log line
`<timestamp>|<chat name>|<chat id> - <error>` and sends no reply. -/
theorem C4_other_error_silent (ts chatName : String) (chatId : Int)
    (err text : String) (h : is_not_found_error err = false) :
    handle_error ts chatName chatId err text =
      (⟨ts.data ++ [ '|' ] ++ chatName.data ++ [ '|' ] ++ (intStr chatId).data
        ++ (" - ").data ++ err.data⟩, none) := by
  unfold handle_error fallback_responder
  rw [if_neg (by simp [h])]

/-- C4 witness: a concrete non-NotFound error produces the log line and
no reply. -/
theorem C4_other_error_silent_witness :
    handle_error ("01.02.2025 10:00:00") ("chat") 5 ("boom") ("42177") =
      ("01.02.2025 10:00:00|chat|5 - boom", none) :=
  (C4_other_error_silent ("01.02.2025 10:00:00") ("chat") 5 ("boom") ("42177")
    (by decide)).trans (by decide)

/-- C5 (amended): the delivery pipeline of `send_set` always attempts the
direct-URL photo send first; exactly when that send raises the
platform's bad-request error with the fixed wrong-web-content substring
it performs one HTTP GET, and one byte re-send as `set.jpg` with the
same caption and markup mode when the GET succeeds; a bad-request error
without the substring, and any platform error of another class,
propagates unchanged with the GET never attempted. -/
theorem C5_deliver (imageUrl caption : String) (env : DeliverEnv) :
    ((send_set_deliver imageUrl caption env).1.head? =
      some (.sendPhotoUrl imageUrl caption true)) ∧
    (env.firstSend = .sent →
      send_set_deliver imageUrl caption env =
        ([.sendPhotoUrl imageUrl caption true], .delivered)) ∧
    (∀ m, env.firstSend = .raised (.badRequest m) →
      isSubL wrongTypeSub.data m.data = true →
      ((∀ b, fetch_image_bytes env.imageResp = .ok b →
        ((env.secondSend = .sent →
          send_set_deliver imageUrl caption env =
            ([.sendPhotoUrl imageUrl caption true, .httpGet imageUrl,
              .sendPhotoBytes ("set.jpg") caption true], .delivered)) ∧
          (∀ e2, env.secondSend = .raised e2 →
            send_set_deliver imageUrl caption env =
              ([.sendPhotoUrl imageUrl caption true, .httpGet imageUrl,
                .sendPhotoBytes ("set.jpg") caption true], .platformError e2)))) ∧
        (∀ st, fetch_image_bytes env.imageResp = .statusError st →
          send_set_deliver imageUrl caption env =
            ([.sendPhotoUrl imageUrl caption true, .httpGet imageUrl],
              .fetchFailure (.statusError st))) ∧
        (∀ ms, fetch_image_bytes env.imageResp = .notImage ms →
          send_set_deliver imageUrl caption env =
            ([.sendPhotoUrl imageUrl caption true, .httpGet imageUrl],
              .fetchFailure (.notImage ms))))) ∧
    (∀ m, env.firstSend = .raised (.badRequest m) →
      isSubL wrongTypeSub.data m.data = false →
      send_set_deliver imageUrl caption env =
        ([.sendPhotoUrl imageUrl caption true], .platformError (.badRequest m))) ∧
    (∀ m, env.firstSend = .raised (.otherExc m) →
      send_set_deliver imageUrl caption env =
        ([.sendPhotoUrl imageUrl caption true], .platformError (.otherExc m))) := by
  obtain ⟨fs, resp, ss⟩ := env
  cases fs with
  | sent => refine ⟨?_, ?_, ?_, ?_, ?_⟩ <;> simp [send_set_deliver]
  | raised e =>
    cases e with
    | otherExc m => refine ⟨?_, ?_, ?_, ?_, ?_⟩ <;> simp [send_set_deliver]
    | badRequest m =>
      by_cases hsub : isSubL wrongTypeSub.data m.data
      · cases hfr : fetch_image_bytes resp with
        | ok b =>
          cases ss with
          | sent =>
            refine ⟨?_, ?_, ?_, ?_, ?_⟩ <;> simp [send_set_deliver, hsub, hfr]
          | raised e2 =>
            refine ⟨?_, ?_, ?_, ?_, ?_⟩ <;> simp [send_set_deliver, hsub, hfr]
        | statusError st =>
          refine ⟨?_, ?_, ?_, ?_, ?_⟩ <;> simp [send_set_deliver, hsub, hfr]
        | notImage ms =>
          refine ⟨?_, ?_, ?_, ?_, ?_⟩ <;> simp [send_set_deliver, hsub, hfr]
      · refine ⟨?_, ?_, ?_, ?_, ?_⟩ <;>
          simp [send_set_deliver, hsub, Bool.not_eq_true]

/-- C5 witness: a bad-request error containing the fixed substring, with
a successful image fetch and re-send, yields exactly the direct send,
one GET and one byte re-send. -/
theorem C5_deliver_witness :
    send_set_deliver ("u") ("c")
        ⟨.raised (.badRequest ("Bad Request: wrong type of the web page content")),
          ⟨200, some ("image/png"), "", [7]⟩, .sent⟩ =
      ([.sendPhotoUrl ("u") ("c") true, .httpGet ("u"),
        .sendPhotoBytes ("set.jpg") ("c") true], .delivered) :=
  ((((C5_deliver ("u") ("c")
      ⟨.raised (.badRequest ("Bad Request: wrong type of the web page content")),
        ⟨200, some ("image/png"), "", [7]⟩, .sent⟩).2.2.1
    ("Bad Request: wrong type of the web page content") rfl (by decide)).1
      [7] (by decide)).1 rfl)

/-- C5 counterexample: a platform error of a class other than bad-request
whose message contains the fixed wrong-web-content substring propagates
unchanged and the GET is never attempted, contradicting the claim's
"if and only if ... a platform error whose message contains the
substring". -/
theorem C5_counterexample :
    isSubL wrongTypeSub.data (("wrong type of the web page content").data) = true ∧
    send_set_deliver ("u") ("c")
        ⟨.raised (.otherExc ("wrong type of the web page content")),
          ⟨200, some ("image/png"), "", []⟩, .sent⟩ =
      ([.sendPhotoUrl ("u") ("c") true],
        .platformError (.otherExc ("wrong type of the web page content"))) ∧
    BotCall.httpGet ("u") ∉
      (send_set_deliver ("u") ("c")
        ⟨.raised (.otherExc ("wrong type of the web page content")),
          ⟨200, some ("image/png"), "", []⟩, .sent⟩).1 :=
  ⟨by decide, by decide, by decide⟩

/-- C6 (amended): `format_set_html` produces exactly the caption layout
`captSpec`: identifier line from the leading digit run of the stripped
raw `set_num` (the raw field verbatim when it has no leading digits),
em-dash for missing year or part count, the catalog source-link line
present exactly when `set_url` is non-empty after stripping surrounding
whitespace, and always the retailer search link
`https://www.lego.com/en-us/search?q=<id>` built from the cleaned
identifier; the second component is the stripped image URL. -/
theorem C6_format_caption (d : SetData) :
    (format_set_html d).1.data = captSpec d ∧
    (format_set_html d).2 = stripStr d.set_img_url ∧
    ((stripStr d.set_num).data.takeWhile Char.isDigit = [] →
      set_num_clean (stripStr d.set_num) = stripStr d.set_num) ∧
    ((stripStr d.set_num).data.takeWhile Char.isDigit ≠ [] →
      ∃ rest, (stripStr d.set_num).data =
          (set_num_clean (stripStr d.set_num)).data ++ rest ∧
        (∀ c ∈ (set_num_clean (stripStr d.set_num)).data, c.isDigit = true) ∧
        (set_num_clean (stripStr d.set_num)).data ≠ [] ∧
        headNotSat Char.isDigit rest) := by
  refine ⟨format_set_html_fst_data d, rfl, ?_, ?_⟩
  · intro h
    unfold set_num_clean
    rw [if_pos (by simp [h])]
  · intro h
    have hcl : (set_num_clean (stripStr d.set_num)).data =
        (stripStr d.set_num).data.takeWhile Char.isDigit := by
      unfold set_num_clean
      rw [if_neg (by simpa using h)]
    refine ⟨(stripStr d.set_num).data.dropWhile Char.isDigit, ?_, ?_, ?_, ?_⟩
    · rw [hcl, List.takeWhile_append_dropWhile]
    · intro c hc
      rw [hcl] at hc
      exact mem_takeWhile_sat hc
    · rw [hcl]; exact h
    · exact headNotSat_dropWhile Char.isDigit _

/-- C6 witness: a suffixed raw identifier is cleaned to its leading digit
run. -/
theorem C6_format_caption_witness :
    ∃ rest, (stripStr ("42177-1")).data =
        (set_num_clean (stripStr ("42177-1"))).data ++ rest ∧
      (∀ c ∈ (set_num_clean (stripStr ("42177-1"))).data, c.isDigit = true) ∧
      (set_num_clean (stripStr ("42177-1"))).data ≠ [] ∧
      headNotSat Char.isDigit rest :=
  (C6_format_caption ⟨"", none, none, "", "", "42177-1"⟩).2.2.2 (by decide)

/-- C6 counterexample: a whitespace-only `set_url` is a non-empty field,
yet the caption carries no catalog source link line, because the code
tests the stripped value; the claim's "exactly when the record's
set_url is non-empty" fails. -/
theorem C6_counterexample :
    (⟨"", none, none, " ", "", "42177"⟩ : SetData).set_url ≠ "" ∧
    isSubL (("Rebrickable").data)
      ((format_set_html ⟨"", none, none, " ", "", "42177"⟩).1.data) = false :=
  ⟨by decide, by decide⟩

/-- C7: no raw markup-significant character of any catalog field survives
into the caption: the counts of `<`, `>`, `"` and the apostrophe in the
caption are fixed by the template alone (whatever the name, identifier
or URLs contain), and each character of the name, cleaned identifier or
source URL appears via its `html.escape` image as a substring. -/
theorem C7_markup_escaping (d : SetData) :
    ((format_set_html d).1.data.count '<' =
      if (stripStr d.set_url).data.isEmpty then 10 else 14) ∧
    ((format_set_html d).1.data.count '>' =
      if (stripStr d.set_url).data.isEmpty then 10 else 14) ∧
    ((format_set_html d).1.data.count '"' =
      if (stripStr d.set_url).data.isEmpty then 2 else 4) ∧
    ((format_set_html d).1.data.count '\x27' = 0) ∧
    (∀ c, c ∈ (stripStr d.name).data ∨
        c ∈ (set_num_clean (stripStr d.set_num)).data →
      escChar c <:+: (format_set_html d).1.data) ∧
    ('"' ∈ (stripStr d.set_url).data →
      escChar '"' <:+: (format_set_html d).1.data) := by
  rw [format_set_html_fst_data d]
  refine ⟨captSpec_count_lt d, captSpec_count_gt d, captSpec_count_quot d,
    captSpec_count_apos d, ?_, ?_⟩
  · intro c hc
    rcases hc with hc | hc
    · exact (escChar_infix_escapeList hc).trans (escName_infix_captSpec d)
    · exact (escChar_infix_escapeList hc).trans (escId_infix_captSpec d)
  · intro hc
    have hne : (stripStr d.set_url).data.isEmpty = false :=
      List.isEmpty_eq_false.mpr (List.ne_nil_of_mem hc)
    exact (escChar_infix_escapeList hc).trans (escUrl_infix_captSpec d hne)

/-- C7 witness: a `<` inside a record name appears in the caption as its
escaped image. -/
theorem C7_markup_escaping_witness :
    escChar '<' <:+: (format_set_html ⟨"a<b", none, none, "", "", "1"⟩).1.data :=
  (C7_markup_escaping ⟨"a<b", none, none, "", "", "1"⟩).2.2.2.2.1 '<'
    (Or.inl (by decide))

/-- C8: `fetch_image_bytes` issues one GET with the fixed user-agent,
redirects followed and timeout 20; an error status (400 and above)
raises; a declared content type not beginning with `image/` raises with
a message carrying the content type and the `repr` of at most 120
characters of the body; otherwise the body bytes are returned. -/
theorem C8_fetch_spec (url : String) (resp : HttpResponse) :
    fetch_image_request url =
      ⟨url, "Mozilla/5.0 (compatible; LegoBot/1.0)", true, 20⟩ ∧
    (400 ≤ resp.status → fetch_image_bytes resp = .statusError resp.status) ∧
    (resp.status < 400 →
      isPrefL (("image/").data) ((resp.contentType.getD "").data) = true →
      fetch_image_bytes resp = .ok resp.bodyBytes) ∧
    (resp.status < 400 →
      isPrefL (("image/").data) ((resp.contentType.getD "").data) = false →
      ∃ msg, fetch_image_bytes resp = .notImage msg ∧
        isSubL ((resp.contentType.getD "").data) msg.data = true ∧
        isSubL ((pyRepr ⟨resp.bodyText.data.take 120⟩).data) msg.data = true ∧
        (resp.bodyText.data.take 120).length ≤ 120) := by
  refine ⟨rfl, ?_, ?_, ?_⟩
  · intro h
    unfold fetch_image_bytes
    rw [if_pos h]
  · intro h1 h2
    unfold fetch_image_bytes
    rw [if_neg (by omega), if_pos h2]
  · intro h1 h2
    unfold fetch_image_bytes
    rw [if_neg (by omega), if_neg (by simp [h2])]
    refine ⟨_, rfl, ?_, ?_, List.length_take_le 120 resp.bodyText.data⟩
    · exact (isSubL_iff _ _).mpr
        ⟨("Not an image. Content-Type=").data,
          (". Sample=").data ++ (pyRepr ⟨resp.bodyText.data.take 120⟩).data,
          by simp [List.append_assoc]⟩
    · exact (isSubL_iff _ _).mpr
        ⟨("Not an image. Content-Type=").data ++ (resp.contentType.getD "").data
            ++ (". Sample=").data, [],
          by simp [List.append_assoc]⟩

/-- C8 witness: a 200 response declared `text/html` is rejected with the
content type and the quoted body prefix in the message. -/
theorem C8_fetch_spec_witness :
    ∃ msg, fetch_image_bytes ⟨200, some ("text/html"), "<html>", []⟩ = .notImage msg ∧
      isSubL ((((⟨200, some ("text/html"), "<html>", []⟩ : HttpResponse)).contentType.getD "").data)
        msg.data = true ∧
      isSubL ((pyRepr ⟨(("<html>").data).take 120⟩).data) msg.data = true ∧
      ((("<html>").data).take 120).length ≤ 120 :=
  (C8_fetch_spec ("http://x") ⟨200, some ("text/html"), "<html>", []⟩).2.2.2
    (by decide) (by decide)

/-- C9: a digit run of integer value zero is extracted as `0`, but the
handler's `if not set_id` truthiness test treats it as no identifier: a
private chat gets the soft usage prompt and no lookup, a group mention
gets silence and no lookup. -/
theorem C9_zero_identifier :
    (∀ text u : String, extract_private_set_id text = some 0 →
      unified_main .privateChat text u = .softPrompt usagePromptText true) ∧
    (∀ text u : String, extract_group_set_id text u = some 0 →
      unified_main .group text u = .silent ∧
        unified_main .supergroup text u = .silent) ∧
    extract_private_set_id ("0") = some 0 ∧
    extract_private_set_id ("000") = some 0 ∧
    extract_private_set_id ("0-1") = some 0 ∧
    unified_main .privateChat ("000") ("rebrickable_bot") =
      .softPrompt usagePromptText true ∧
    extract_group_set_id ("@rebrickable_bot 000") ("rebrickable_bot") = some 0 ∧
    unified_main .group ("@rebrickable_bot 000") ("rebrickable_bot") = .silent := by
  refine ⟨?_, ?_, by decide, by decide, by decide, by decide, by decide, by decide⟩
  · intro text u h
    unfold unified_main
    rw [h]
    simp
  · intro text u h
    constructor <;> (unfold unified_main; rw [h]; simp)

/-- C9 witness: the concrete private text `"0-1"` extracts `0` and gets
the soft prompt. -/
theorem C9_zero_identifier_witness :
    unified_main .privateChat ("0-1") ("b") = .softPrompt usagePromptText true :=
  C9_zero_identifier.1 ("0-1") ("b") (by decide)

/-- C10: the NotFound fallback re-extracts the leftmost maximal digit run
of the raw stripped text (`IsLeftmostRun` characterises `firstRun`) and
builds the reply and the 6-digit MOC decision from that run alone; in a
group message mentioning a handle that itself contains digits, the
looked-up identifier is `123456` while the fallback echoes the earlier
run `4` from the handle. -/
theorem C10_fallback_reextraction :
    (∀ l ds, firstRun l = some ds ↔ IsLeftmostRun l ds) ∧
    (∀ err text ds, is_not_found_error err = true →
      IsLeftmostRun (pyStrip text.data) ds →
      fallback_responder err text =
        some (if looks_like_moc_id (digitsToNat ds) then mocMsg (digitsToNat ds)
          else notFoundMsg ⟨ds⟩)) ∧
    extract_group_set_id ("@brick4you 123456") ("brick4you") = some 123456 ∧
    fallback_responder ("404") ("@brick4you 123456") = some (notFoundMsg ("4")) := by
  refine ⟨firstRun_eq_some_iff, ?_, by decide, by decide⟩
  intro err text ds h1 h2
  unfold fallback_responder
  rw [if_pos h1, (firstRun_eq_some_iff (pyStrip text.data) ds).mpr h2]
  simp only []
  rw [apply_ite some]

/-- C10 witness: the text `x9y77777` has leftmost run `9`; the fallback
echoes it. -/
theorem C10_fallback_reextraction_witness :
    fallback_responder ("404") ("x9y77777") = some (notFoundMsg ("9")) := by
  have h := C10_fallback_reextraction.2.1 ("404") ("x9y77777") (("9").data)
    (by decide)
    ((C10_fallback_reextraction.1 (pyStrip (("x9y77777").data)) (("9").data)).mp
      (by decide))
  exact h.trans (by decide)
